import Mathlib

/-!
# Verification of the RFB protocol engine (`xpra/net/rfb/rfb_protocol.py`)

Shallow embedding of the protocol layer: bytes are `List Nat` (each entry a
byte value 0..255 in the Python source), parsers are pure functions from the
buffered bytes to a `StepResult` recording the bytes consumed, the observable
side effects (packets sent, packet-sink notifications, scheduled deferred
calls) and the parser selected for the next call, mirroring the mutation of
`self._packet_parser`.  Python exceptions escaping a parser are modelled by
the `POutcome.raised` outcome.

The message-type tables `CLIENT_PACKET_TYPE_STR` and `PACKET_STRUCT` live in
`xpra/net/rfb/rfb_const.py`, which is not part of the sampled sources; they
are modelled from the spec (section 4.2 and section 6) together with the
constraints visible in `rfb_protocol.py` itself (the count field of
`SetEncodings` is `values[2]`, the length field of `ClientCutText` is
`values[4]`, the example layout `Struct("!BBBB")`).
-/

/-! ## Python `int()` on ASCII byte strings

`_parse_protocol_handshake` runs `int(x)` over the period-separated pieces of
`packet[4:11]`; `int` accepts optional surrounding ASCII whitespace, an
optional single sign, and a nonempty digit run with single underscores
allowed between digits, and raises `ValueError` otherwise. -/

def isSpace (b : Nat) : Bool :=
  b = 32 || b = 9 || b = 10 || b = 13 || b = 11 || b = 12

def isDigit (b : Nat) : Bool :=
  48 ≤ b && b ≤ 57

def stripSpaces (bs : List Nat) : List Nat :=
  ((bs.dropWhile isSpace).reverse.dropWhile isSpace).reverse

/-- Digit run after the first digit: single underscores allowed between digits. -/
def digitsCore : Nat → List Nat → Option Nat
  | acc, [] => some acc
  | _, [95] => none
  | acc, 95 :: c :: rest =>
    if isDigit c then digitsCore (acc * 10 + (c - 48)) rest else none
  | acc, c :: rest =>
    if isDigit c then digitsCore (acc * 10 + (c - 48)) rest else none

/-- Nonempty digit run, leading underscore not allowed. -/
def digitsVal : List Nat → Option Nat
  | [] => none
  | c :: rest => if isDigit c then digitsCore (c - 48) rest else none

/-- Python `int()` on a byte string: `none` models a raised `ValueError`. -/
def pyInt (bs : List Nat) : Option Int :=
  match stripSpaces bs with
  | 43 :: rest => (digitsVal rest).map (fun n => (n : Int))
  | 45 :: rest => (digitsVal rest).map (fun n => -(n : Int))
  | rest => (digitsVal rest).map (fun n => (n : Int))

/-- Python `bytes.split(sep)` for a one-byte separator (keeps empty pieces). -/
def splitOnByte (sep : Nat) : List Nat → List (List Nat)
  | [] => [[]]
  | b :: rest =>
    let r := splitOnByte sep rest
    if b = sep then [] :: r
    else
      match r with
      | [] => [[b]]
      | g :: gs => (b :: g) :: gs

/-- `tuple(int(x) for x in bs.split(b"."))`: `none` models a raised `ValueError`. -/
def parseVersion (bs : List Nat) : Option (List Int) :=
  (splitOnByte 46 bs).mapM pyInt

/-! ## Big-endian field decoding (`struct.unpack` with `!` layouts) -/

/-- Field kinds appearing in the big-endian layouts: `B`, `H`, `I`. -/
inductive FieldKind
  | U8
  | U16
  | U32
deriving DecidableEq

def fieldSize : FieldKind → Nat
  | .U8 => 1
  | .U16 => 2
  | .U32 => 4

def structSize (layout : List FieldKind) : Nat :=
  (layout.map fieldSize).sum

/-- Big-endian value of a byte run. -/
def beVal (bs : List Nat) : Nat :=
  bs.foldl (fun a b => a * 256 + b) 0

/-- Signed 32-bit big-endian value (`struct` format `i`). -/
def i32val (bs : List Nat) : Int :=
  let n := beVal bs
  if n < 2 ^ 31 then (n : Int) else (n : Int) - 2 ^ 32

/-- `struct.unpack` of a fixed big-endian layout: each field reads its bytes
from the front, the packet may be longer than the layout. -/
def unpackFields : List FieldKind → List Nat → List Int
  | [], _ => []
  | f :: fs, bs =>
    ((beVal (bs.take (fieldSize f)) : Nat) : Int) :: unpackFields fs (bs.drop (fieldSize f))

/-- `struct.unpack("!" + "i"*N, ...)`: a run of `n` signed 32-bit integers. -/
def decodeI32s : Nat → List Nat → List Int
  | 0, _ => []
  | n + 1, bs => i32val (bs.take 4) :: decodeI32s n (bs.drop 4)

/-! ## Observable effects and parser states -/

/-- The format strings passed to `invalid()`, abstracted constructor-per-format
together with the interpolated data. -/
inductive InvalidMsg
  | unknownPacketType (ptype : Nat)
  | unsupportedPacketType (ptype : Nat)
  | handshakeHeader (preview : List Nat) (buffer : List Nat)
  | unsupportedProtocolVersion
deriving DecidableEq

inductive RFBExtra
  | nothing
  | encodings (vals : List Int)
  | text (data : List Nat)
deriving DecidableEq

/-- A dispatched packet: `values` with `values[0]` replaced by the packet-type
name, i.e. the name, the remaining fixed fields, and the optional variable
trailer appended by `_parse_rfb`. -/
structure RFBPacket where
  name : String
  fields : List Int
  extra : RFBExtra
deriving DecidableEq

/-- Observable side effects of a parser call, in program order. -/
inductive Event
  | sent (data : List Nat)                              -- `self.send(data)`
  | invalidNotify (msg : InvalidMsg) (data : List Nat)  -- `idle_add(cb, self, [INVALID, msg, data])`
  | scheduleDisconnect                                  -- `timeout_add(1000, self._connection_lost, ...)`
  | dispatch (p : RFBPacket)                            -- `self._process_packet_cb(self, values)`
  | handshakeComplete                                   -- the `handshake_complete()` extension point
deriving DecidableEq

/-- The value of `self._packet_parser`. -/
inductive ParserKind
  | handshake          -- `_parse_protocol_handshake`
  | securityHandshake  -- the stage selected by `handshake_complete()` (extension point)
  | rfb                -- `_parse_rfb`
  | invalid            -- `_parse_invalid`
deriving DecidableEq

/-- Python exceptions that can escape a parser. -/
inductive PyErr
  | typeError
  | valueError
deriving DecidableEq

/-- `ok n`: the parser returned the consumed count `n`; `raised e`: the call
raised exception `e` (propagating into `_io_thread_loop`). -/
inductive POutcome
  | ok (n : Nat)
  | raised (e : PyErr)
deriving DecidableEq

structure StepResult where
  events : List Event
  parser : ParserKind
  outcome : POutcome
deriving DecidableEq

/-! ## The message-type tables (modelled from the spec) -/

/-- Modelled from the spec: `rfb_const.CLIENT_PACKET_TYPE_STR` (not in the
sampled sources) maps each supported one-byte client message code to its
name; the supported codes are the standard RFB client messages. -/
def CLIENT_PACKET_TYPE_STR (t : Nat) : Option String :=
  match t with
  | 0 => some "SetPixelFormat"
  | 2 => some "SetEncodings"
  | 3 => some "FramebufferUpdateRequest"
  | 4 => some "KeyEvent"
  | 5 => some "PointerEvent"
  | 6 => some "ClientCutText"
  | _ => none

/-- Modelled from the spec: `rfb_const.PACKET_STRUCT` (not in the sampled
sources) maps each code to its fixed big-endian layout; constrained by
`rfb_protocol.py` itself: the `SetEncodings` count is `values[2]` (layout
`!BBH`) and the `ClientCutText` length is `values[4]` (layout `!BBBBI`). -/
def PACKET_STRUCT (t : Nat) : Option (List FieldKind) :=
  match t with
  | 0 => some [.U8, .U8, .U8, .U8, .U8, .U8, .U8, .U8, .U16, .U16, .U16, .U8, .U8, .U8, .U8, .U8, .U8]
  | 2 => some [.U8, .U8, .U16]
  | 3 => some [.U8, .U8, .U16, .U16, .U16, .U16]
  | 4 => some [.U8, .U8, .U16, .U32]
  | 5 => some [.U8, .U8, .U16, .U16]
  | 6 => some [.U8, .U8, .U8, .U8, .U32]
  | _ => none

namespace RFBClientMessage

def SetEncodings : Nat := 2

def ClientCutText : Nat := 6

end RFBClientMessage

def PROTOCOL_VERSION : List Int := [3, 8]

/-- The 12 bytes of `b"RFB 003.008\n"`. -/
def RFB_HANDSHAKE : List Nat := [82, 70, 66, 32, 48, 48, 51, 46, 48, 48, 56, 10]

/-! ## The parsers -/

/-- `_parse_invalid`: consume everything without interpreting it. -/
def parse_invalid (packet : List Nat) : StepResult :=
  ⟨[], .invalid, .ok packet.length⟩

/-- `_parse_protocol_handshake` (lines 70-86).

* fewer than 12 bytes: return 0;
* header not `b"RFB "`: `invalid_header` → `_invalid_header` → `invalid`
  (switch to the discard parser, INVALID notification with the hex preview of
  the first 8 bytes, deferred disconnect), return 0;
* `int()` on a version piece that is not an integer literal raises
  `ValueError` out of the parser;
* version triple different from `PROTOCOL_VERSION`: line 80 binds `msg` to a
  `str`, so `struct.pack(b"!BI", 0, len(msg)) + msg` on line 82 raises
  `TypeError` (bytes + str) before `send`/`invalid` are reached;
* exact version: `handshake_complete()` extension point, return 12.  The
  resulting parser stage is the one the extension point selects (modelled
  from the spec as `securityHandshake`). -/
def parse_protocol_handshake (packet : List Nat) : StepResult :=
  if packet.length < 12 then ⟨[], .handshake, .ok 0⟩
  else if packet.take 4 ≠ [82, 70, 66, 32] then
    ⟨[.invalidNotify (.handshakeHeader (packet.take 8) packet) packet, .scheduleDisconnect],
      .invalid, .ok 0⟩
  else
    match parseVersion ((packet.drop 4).take 7) with
    | none => ⟨[], .handshake, .raised .valueError⟩
    | some v =>
      if v ≠ PROTOCOL_VERSION then ⟨[], .handshake, .raised .typeError⟩
      else ⟨[.handshakeComplete], .securityHandshake, .ok 12⟩

/-- Total size of the message at the head of the buffer, given the decoded
fixed fields: fixed size plus the variable trailer for the two
variable-length message types (lines 119-133). -/
def totalSize (ptype : Nat) (layout : List FieldKind) (values : List Int) : Nat :=
  if ptype = RFBClientMessage.SetEncodings then structSize layout + 4 * (values.getD 2 0).toNat
  else if ptype = RFBClientMessage.ClientCutText then structSize layout + (values.getD 4 0).toNat
  else structSize layout

/-- The packet handed to the packet sink on a successful parse: `values` with
`values[0]` replaced by the packet-type name, plus the decoded trailer. -/
def mkPacket (name : String) (ptype : Nat) (layout : List FieldKind) (packet : List Nat) :
    RFBPacket :=
  let values := unpackFields layout packet
  { name := name
    fields := values.drop 1
    extra :=
      if ptype = RFBClientMessage.SetEncodings then
        .encodings (decodeI32s (values.getD 2 0).toNat (packet.drop (structSize layout)))
      else if ptype = RFBClientMessage.ClientCutText then
        .text ((packet.drop (structSize layout)).take (values.getD 4 0).toNat)
      else .nothing }

/-- `_parse_rfb` (lines 100-139).  The read loop never invokes a parser on an
empty buffer (`while self._buffer:`); the `[]` case is an unreachable
placeholder.  Unknown or unsupported type codes call `invalid()` and return 0;
a buffer shorter than the message returns 0 with no other effect; a complete
message increments the input packet counter (a `dispatch` event) and returns
the total size. -/
def parse_rfb (packet : List Nat) : StepResult :=
  match packet with
  | [] => ⟨[], .rfb, .ok 0⟩
  | ptype :: _ =>
    match CLIENT_PACKET_TYPE_STR ptype with
    | none =>
      ⟨[.invalidNotify (.unknownPacketType ptype) packet, .scheduleDisconnect], .invalid, .ok 0⟩
    | some name =>
      match PACKET_STRUCT ptype with
      | none =>
        ⟨[.invalidNotify (.unsupportedPacketType ptype) packet, .scheduleDisconnect],
          .invalid, .ok 0⟩
      | some layout =>
        if packet.length < structSize layout then ⟨[], .rfb, .ok 0⟩
        else if packet.length < totalSize ptype layout (unpackFields layout packet) then
          ⟨[], .rfb, .ok 0⟩
        else
          ⟨[.dispatch (mkPacket name ptype layout packet)], .rfb,
            .ok (totalSize ptype layout (unpackFields layout packet))⟩

/-- `self._packet_parser` dispatch.  The security-handshake stage is an
abstract extension point (`_parse_security_handshake` is supplied by the
connection variant; modelled from the spec as a stage never exercised by the
core), left as a no-op. -/
def runParser : ParserKind → List Nat → StepResult
  | .handshake, p => parse_protocol_handshake p
  | .securityHandshake, _ => ⟨[], .securityHandshake, .ok 0⟩
  | .rfb, p => parse_rfb p
  | .invalid, p => parse_invalid p

def consumedOf (r : StepResult) : Nat :=
  match r.outcome with
  | .ok n => n
  | .raised _ => 0

/-! ## The read loop -/

/-- Outcome of one run of the `while self._buffer:` loop in `_read`
(lines 253-258): the parser and residual buffer afterwards, or the
exception that escaped a parser call. -/
inductive LoopOut
  | ok (parser : ParserKind) (buffer : List Nat)
  | raised (e : PyErr)
deriving DecidableEq

/-- The inner parse loop of `_read`: invoke the active parser while the
buffer is nonempty, stop on a consumed count of 0, otherwise drop the
consumed bytes and continue with the (possibly updated) active parser. -/
def parseLoop (p : ParserKind) (buf : List Nat) : List Event × LoopOut :=
  if h : buf = [] then ([], .ok p buf)
  else
    let r := runParser p buf
    match r.outcome with
    | .raised e => (r.events, .raised e)
    | .ok 0 => (r.events, .ok r.parser buf)
    | .ok (n + 1) =>
      let rest := parseLoop r.parser (buf.drop (n + 1))
      (r.events ++ rest.1, rest.2)
termination_by buf.length
decreasing_by
  have hb : 0 < buf.length := List.length_pos.mpr h
  simp only [List.length_drop]
  omega

/-- Fuel-indexed variant of `parseLoop`, used to state termination:
`none` means the fuel ran out before the loop finished. -/
def parseLoopF : Nat → ParserKind → List Nat → Option (List Event × LoopOut)
  | 0, _, _ => none
  | fuel + 1, p, buf =>
    if buf = [] then some ([], .ok p buf)
    else
      let r := runParser p buf
      match r.outcome with
      | .raised e => some (r.events, .raised e)
      | .ok 0 => some (r.events, .ok r.parser buf)
      | .ok (n + 1) =>
        (parseLoopF fuel r.parser (buf.drop (n + 1))).map
          (fun rest => (r.events ++ rest.1, rest.2))

/-- One `_read` with a nonempty chunk: append to the residual buffer, then
run the parse loop. -/
def feed (st : ParserKind × List Nat) (chunk : List Nat) : List Event × LoopOut :=
  parseLoop st.1 (st.2 ++ chunk)

/-- A sequence of reads; an exception aborts the sequence. -/
def feedMany : ParserKind × List Nat → List (List Nat) → List Event × LoopOut
  | st, [] => ([], .ok st.1 st.2)
  | st, c :: cs =>
    let r := feed st c
    match r.2 with
    | .raised e => (r.1, .raised e)
    | .ok p b =>
      let rest := feedMany (p, b) cs
      (r.1 ++ rest.1, rest.2)

/-- A buffer holding exactly one well-formed complete message:
`_parse_rfb` consumes precisely the whole buffer. -/
def CompleteMessage (msg : List Nat) : Prop :=
  msg ≠ [] ∧ (parse_rfb msg).outcome = POutcome.ok msg.length

instance (msg : List Nat) : Decidable (CompleteMessage msg) := by
  unfold CompleteMessage
  infer_instance

/-! ## Structural lemmas -/

theorem structSize_cons (f : FieldKind) (fs : List FieldKind) :
    structSize (f :: fs) = fieldSize f + structSize fs := by
  simp [structSize]

/-- Decoding a fixed layout only looks at the first `structSize layout` bytes. -/
theorem unpackFields_take (layout : List FieldKind) (l : List Nat) (k : Nat)
    (h : structSize layout ≤ k) :
    unpackFields layout (l.take k) = unpackFields layout l := by
  induction layout generalizing l k with
  | nil => simp [unpackFields]
  | cons f fs ih =>
    rw [structSize_cons] at h
    rw [unpackFields, unpackFields]
    have h1 : fieldSize f ⊓ k = fieldSize f := min_eq_left (by omega)
    congr 1
    · rw [List.take_take, h1]
    · rw [List.drop_take]
      exact ih (l.drop (fieldSize f)) (k - fieldSize f) (by omega)

/-- The three possible shapes of a `_parse_rfb` result: silent wait (return
0, no effects), a single INVALID notification with a deferred disconnect and
the switch to the discard parser, or a single dispatched packet. -/
theorem parse_rfb_cases (buf : List Nat) :
    parse_rfb buf = ⟨[], .rfb, .ok 0⟩ ∨
    (∃ m, parse_rfb buf =
      ⟨[.invalidNotify m buf, .scheduleDisconnect], .invalid, .ok 0⟩) ∨
    (∃ p n, parse_rfb buf = ⟨[.dispatch p], .rfb, .ok n⟩) := by
  unfold parse_rfb
  split
  · exact Or.inl rfl
  · split
    · exact Or.inr (Or.inl ⟨_, rfl⟩)
    · split
      · exact Or.inr (Or.inl ⟨_, rfl⟩)
      · split
        · exact Or.inl rfl
        · split
          · exact Or.inl rfl
          · exact Or.inr (Or.inr ⟨_, _, rfl⟩)

/-- A complete message parses to exactly one dispatched packet consuming the
whole buffer. -/
theorem complete_dispatch (msg : List Nat) (hc : CompleteMessage msg) :
    ∃ p, parse_rfb msg = ⟨[.dispatch p], .rfb, .ok msg.length⟩ := by
  obtain ⟨hne, hout⟩ := hc
  rcases parse_rfb_cases msg with h | ⟨m, h⟩ | ⟨p, n, h⟩
  · rw [h] at hout
    simp only [POutcome.ok.injEq] at hout
    exact absurd (List.length_eq_zero.mp hout.symm) hne
  · rw [h] at hout
    simp only [POutcome.ok.injEq] at hout
    exact absurd (List.length_eq_zero.mp hout.symm) hne
  · rw [h] at hout
    simp only [POutcome.ok.injEq] at hout
    exact ⟨p, by rw [h, hout]⟩


/-- Unfolding of `_parse_rfb` at an unknown type code. -/
theorem parse_rfb_unknown_eq (t : Nat) (r : List Nat)
    (h1 : CLIENT_PACKET_TYPE_STR t = none) :
    parse_rfb (t :: r) =
      ⟨[.invalidNotify (.unknownPacketType t) (t :: r), .scheduleDisconnect],
        .invalid, .ok 0⟩ := by
  simp only [parse_rfb, h1]

/-- Unfolding of `_parse_rfb` at a known type code. -/
theorem parse_rfb_cons_eq (t : Nat) (r : List Nat) (name : String)
    (layout : List FieldKind) (h1 : CLIENT_PACKET_TYPE_STR t = some name)
    (h2 : PACKET_STRUCT t = some layout) :
    parse_rfb (t :: r) =
      if (t :: r).length < structSize layout then ⟨[], .rfb, .ok 0⟩
      else if (t :: r).length < totalSize t layout (unpackFields layout (t :: r)) then
        ⟨[], .rfb, .ok 0⟩
      else
        ⟨[.dispatch (mkPacket name t layout (t :: r))], .rfb,
          .ok (totalSize t layout (unpackFields layout (t :: r)))⟩ := by
  simp only [parse_rfb, h1, h2]

/-- A proper front part of a complete message is never an error:
`_parse_rfb` returns 0 with no side effects and the parser unchanged. -/
theorem parse_rfb_take_noop (msg : List Nat) (k : Nat)
    (hc : CompleteMessage msg) (hk : k < msg.length) :
    parse_rfb (msg.take k) = ⟨[], .rfb, .ok 0⟩ := by
  obtain ⟨hne, hout⟩ := hc
  cases msg with
  | nil => exact absurd rfl hne
  | cons t rest =>
    cases k with
    | zero => rw [List.take_zero]; rfl
    | succ j =>
      rw [List.take_succ_cons]
      cases h1 : CLIENT_PACKET_TYPE_STR t with
      | none =>
        rw [parse_rfb_unknown_eq t rest h1] at hout
        simp at hout
      | some name =>
        cases h2 : PACKET_STRUCT t with
        | none => simp only [parse_rfb, h1, h2] at hout; simp at hout
        | some layout =>
          rw [parse_rfb_cons_eq t rest name layout h1 h2] at hout
          by_cases hsz : (t :: rest).length < structSize layout
          · rw [if_pos hsz] at hout; simp at hout
          · rw [if_neg hsz] at hout
            by_cases hts : (t :: rest).length <
                totalSize t layout (unpackFields layout (t :: rest))
            · rw [if_pos hts] at hout; simp at hout
            · rw [if_neg hts] at hout
              have hsize : totalSize t layout (unpackFields layout (t :: rest)) =
                  (t :: rest).length := by simpa using hout
              rw [parse_rfb_cons_eq t (rest.take j) name layout h1 h2]
              have hlenj : (t :: rest.take j).length = j + 1 := by
                simp only [List.length_cons, List.length_take]
                have hj : j < rest.length := by
                  simp only [List.length_cons] at hk; omega
                rw [inf_eq_left.mpr (le_of_lt hj)]
              by_cases hbs : (t :: rest.take j).length < structSize layout
              · rw [if_pos hbs]
              · rw [if_neg hbs]
                have hvals : unpackFields layout (t :: rest.take j) =
                    unpackFields layout (t :: rest) := by
                  have heq : t :: rest.take j = (t :: rest).take (j + 1) :=
                    (List.take_succ_cons).symm
                  rw [heq]
                  exact unpackFields_take layout (t :: rest) (j + 1)
                    (by rw [hlenj] at hbs; omega)
                rw [hvals]
                have hlt : (t :: rest.take j).length <
                    totalSize t layout (unpackFields layout (t :: rest)) := by
                  rw [hsize, hlenj]; exact hk
                rw [if_pos hlt]

/-! ## Lemmas about the read loop -/

/-- A parser call consuming 0 bytes with no effect stops the loop silently. -/
theorem parseLoop_noop (p : ParserKind) (buf : List Nat)
    (h : runParser p buf = ⟨[], p, .ok 0⟩) :
    parseLoop p buf = ([], .ok p buf) := by
  rw [parseLoop]
  by_cases hb : buf = []
  · simp [hb]
  · simp [hb, h]

/-- A parser call consuming the whole buffer with one dispatch empties the
buffer and delivers that dispatch. -/
theorem parseLoop_dispatch (buf : List Nat) (q : RFBPacket)
    (h : parse_rfb buf = ⟨[.dispatch q], .rfb, .ok buf.length⟩) (hne : buf ≠ []) :
    parseLoop .rfb buf = ([.dispatch q], .ok .rfb []) := by
  obtain ⟨n, hn⟩ : ∃ n, buf.length = n + 1 :=
    ⟨buf.length - 1, by have := List.length_pos.mpr hne; omega⟩
  have hdrop : buf.drop (n + 1) = [] := by rw [← hn]; exact List.drop_length buf
  rw [parseLoop]
  simp only [hne, if_neg, reduceIte, runParser, h, hn, hdrop]
  rw [parseLoop]
  simp

/-- The discard parser (`_parse_invalid`) consumes everything silently. -/
theorem parseLoop_invalid (buf : List Nat) :
    parseLoop .invalid buf = ([], .ok .invalid []) := by
  by_cases hb : buf = []
  · subst hb; rw [parseLoop]; simp
  · obtain ⟨n, hn⟩ : ∃ n, buf.length = n + 1 :=
      ⟨buf.length - 1, by have := List.length_pos.mpr hb; omega⟩
    have hdrop : buf.drop (n + 1) = [] := by rw [← hn]; exact List.drop_length buf
    rw [parseLoop]
    simp only [hb, if_neg, reduceIte, runParser, parse_invalid, hn, hdrop]
    rw [parseLoop]
    simp

/-- Once in discard mode, any sequence of further reads produces no events
and stays in discard mode. -/
theorem feedMany_discard (cs : List (List Nat)) (b : List Nat) :
    (feedMany (.invalid, b) cs).1 = [] ∧
    ∃ b', (feedMany (.invalid, b) cs).2 = LoopOut.ok .invalid b' := by
  induction cs generalizing b with
  | nil => exact ⟨rfl, b, rfl⟩
  | cons c cs ih =>
    have hfeed : feed (.invalid, b) c = ([], .ok .invalid []) := parseLoop_invalid (b ++ c)
    obtain ⟨h1, b', h2⟩ := ih []
    refine ⟨?_, b', ?_⟩
    · simp [feedMany, hfeed, h1]
    · simp [feedMany, hfeed, h2]

/-- Reads whose chunks are all empty have no effect in the message state. -/
theorem feedMany_rfb_empty (cs : List (List Nat)) (h : cs.flatten = []) :
    feedMany (.rfb, []) cs = ([], .ok .rfb []) := by
  induction cs with
  | nil => rfl
  | cons c cs ih =>
    rw [List.flatten_cons, List.append_eq_nil] at h
    have hfeed : feed ((.rfb : ParserKind), ([] : List Nat)) c = ([], .ok .rfb []) := by
      show parseLoop .rfb ([] ++ c) = ([], .ok .rfb [])
      rw [List.nil_append, h.1, parseLoop]
      simp
    simp [feedMany, hfeed, ih h.2]

/-- Core of fragmentation invariance: with a proper front part of a complete
message buffered, feeding the remaining chunks delivers exactly the one
dispatch of the whole message and empties the buffer. -/
theorem feedMany_rfb_frag (msg : List Nat) (q : RFBPacket)
    (hp : parse_rfb msg = ⟨[.dispatch q], .rfb, .ok msg.length⟩)
    (hc : CompleteMessage msg) :
    ∀ (cs : List (List Nat)) (pre : List Nat), pre ++ cs.flatten = msg → pre ≠ msg →
      feedMany (.rfb, pre) cs = ([.dispatch q], .ok .rfb []) := by
  intro cs
  induction cs with
  | nil =>
    intro pre hflat hne
    rw [List.flatten_nil, List.append_nil] at hflat
    exact absurd hflat hne
  | cons c cs ih =>
    intro pre hflat hne
    rw [List.flatten_cons, ← List.append_assoc] at hflat
    by_cases hb : pre ++ c = msg
    · have hcs : cs.flatten = [] := by
        rw [hb] at hflat
        exact (List.append_right_eq_self).mp hflat
      have hfeed : feed (.rfb, pre) c = ([.dispatch q], .ok .rfb []) := by
        show parseLoop .rfb (pre ++ c) = ([.dispatch q], .ok .rfb [])
        rw [hb]
        exact parseLoop_dispatch msg q hp hc.1
      simp [feedMany, hfeed, feedMany_rfb_empty cs hcs]
    · have htake : pre ++ c = msg.take (pre ++ c).length := by
        rw [← hflat, List.take_left]
      have hlt : (pre ++ c).length < msg.length := by
        have hlen : msg.length = (pre ++ c).length + cs.flatten.length := by
          rw [← hflat, List.length_append]
        rcases Nat.eq_zero_or_pos cs.flatten.length with h0 | h0
        · exfalso
          apply hb
          rw [← hflat, List.length_eq_zero.mp h0, List.append_nil]
        · omega
      have hnoop : runParser .rfb (pre ++ c) = ⟨[], .rfb, .ok 0⟩ := by
        show parse_rfb (pre ++ c) = ⟨[], .rfb, .ok 0⟩
        rw [htake]
        exact parse_rfb_take_noop msg _ hc hlt
      have hfeed : feed (.rfb, pre) c = ([], .ok .rfb (pre ++ c)) :=
        parseLoop_noop .rfb (pre ++ c) hnoop
      simp [feedMany, hfeed, ih (pre ++ c) hflat hb]

/-- Every parser reports at most the buffered byte count as consumed. -/
theorem consumedOf_le (p : ParserKind) (buf : List Nat) :
    consumedOf (runParser p buf) ≤ buf.length := by
  cases p with
  | handshake =>
    show consumedOf (parse_protocol_handshake buf) ≤ buf.length
    unfold parse_protocol_handshake
    split
    · simp [consumedOf]
    · split
      · simp [consumedOf]
      · split
        · simp [consumedOf]
        · split
          · simp [consumedOf]
          · simp only [consumedOf]; omega
  | securityHandshake => exact Nat.zero_le _
  | rfb =>
    show consumedOf (parse_rfb buf) ≤ buf.length
    unfold parse_rfb
    split
    · simp [consumedOf]
    · split
      · simp [consumedOf]
      · split
        · simp [consumedOf]
        · split
          · simp [consumedOf]
          · split
            · simp [consumedOf]
            · simp only [consumedOf]; omega
  | invalid => exact Nat.le_refl _

/-- Fuel adequacy: `buf.length + 1` loop iterations always suffice, because
any nonzero consumed count strictly shrinks the buffer. -/
theorem parseLoopF_adequate (fuel : Nat) (p : ParserKind) (buf : List Nat)
    (h : buf.length < fuel) :
    parseLoopF fuel p buf = some (parseLoop p buf) := by
  induction fuel generalizing p buf with
  | zero => omega
  | succ k ih =>
    rw [parseLoopF, parseLoop]
    by_cases hb : buf = []
    · simp [hb]
    · simp only [hb, if_neg, reduceIte]
      cases ho : (runParser p buf).outcome with
      | raised e => simp
      | ok n =>
        cases n with
        | zero => simp
        | succ m =>
          have hlen : (buf.drop (m + 1)).length < k := by
            have := List.length_pos.mpr hb
            simp only [List.length_drop]
            omega
          simp [ih _ _ hlen]

/-! ## The `send()` path (lines 174-188) -/

/-- The outbound state touched by `send()`: the closed flag, whether the
write thread was started, and the queued buffers. -/
structure WriteState where
  closed : Bool
  writeThreadStarted : Bool
  writeQueue : List (List Nat)
deriving DecidableEq

/-- `send(packet)`: an early return when the closed flag is set; otherwise
the write thread is started if not yet running and the packet is enqueued. -/
def send (st : WriteState) (packet : List Nat) : WriteState :=
  if st.closed then st
  else
    { closed := st.closed
      writeThreadStarted := true
      writeQueue := st.writeQueue ++ [packet] }

/-! ## The `close()` path (lines 304-325), step by step

`close()` runs: a check of `self._closed` with an early return, the
assignment `self._closed = True`, the read of `self._conn` into `c`, the
guarded `c.close()` plus `self._conn = None`, `terminate_queue_threads()`
(modelled from the spec: swapping in an exit queue enqueues the shutdown
sentinel for the writer thread; `exit_queue`/`force_flush_queue` are not in
the sampled sources), and the `CONNECTION_LOST` packet-sink notification.
Each of these statements is one atomic step; two threads running `close()`
interleave their steps in an arbitrary schedule. -/

structure CloseState where
  closed : Bool
  connOpen : Bool
  connCloseCount : Nat
  sentinelCount : Nat
  connectionLostCount : Nat
deriving DecidableEq

/-- The state of a freshly constructed protocol instance. -/
def initCloseState : CloseState :=
  { closed := false, connOpen := true,
    connCloseCount := 0, sentinelCount := 0, connectionLostCount := 0 }

/-- The atomic statements of `close()`, in program order. -/
inductive CloseInstr
  | checkClosed  -- `if self._closed: return`
  | setClosed    -- `self._closed = True`
  | readConn     -- `c = self._conn`
  | closeConn    -- `if c: c.close(); self._conn = None`
  | sentinel     -- `self.terminate_queue_threads()`
  | lost         -- `self._process_packet_cb(self, [CONNECTION_LOST])`

def closeProg : List CloseInstr :=
  [.checkClosed, .setClosed, .readConn, .closeConn, .sentinel, .lost]

/-- One thread executing `close()`: its remaining statements and its
thread-local register `c`. -/
structure CloseThread where
  prog : List CloseInstr
  reg : Bool

def execInstr (s : CloseState) (t : CloseThread) : CloseState × CloseThread :=
  match t.prog with
  | [] => (s, t)
  | i :: rest =>
    match i with
    | .checkClosed =>
      if s.closed then (s, { t with prog := [] })
      else (s, { t with prog := rest })
    | .setClosed => ({ s with closed := true }, { t with prog := rest })
    | .readConn => (s, { prog := rest, reg := s.connOpen })
    | .closeConn =>
      if t.reg then
        ({ s with connOpen := false, connCloseCount := s.connCloseCount + 1 },
          { t with prog := rest })
      else (s, { t with prog := rest })
    | .sentinel => ({ s with sentinelCount := s.sentinelCount + 1 }, { t with prog := rest })
    | .lost =>
      ({ s with connectionLostCount := s.connectionLostCount + 1 }, { t with prog := rest })

/-- Run two threads under a schedule: `true` steps the first thread,
`false` the second. -/
def runSched (s : CloseState) (a b : CloseThread) : List Bool → CloseState
  | [] => s
  | pick :: rest =>
    if pick then
      let r := execInstr s a
      runSched r.1 r.2 b rest
    else
      let r := execInstr s b
      runSched r.1 a r.2 rest

/-! ## Claims -/

/-- C1: for every input buffer whose first 12 bytes are exactly
`b"RFB 003.008\n"`, `_parse_protocol_handshake` consumes exactly 12 bytes,
invokes the `handshake_complete()` extension point, transitions the active
parser to the extension-selected stage, and signals no invalid; for every
buffer of fewer than 12 bytes it returns 0 with no effect. -/
theorem C1_handshake_exact (packet : List Nat) :
    (packet.length < 12 → parse_protocol_handshake packet = ⟨[], .handshake, .ok 0⟩) ∧
    (packet.take 12 = RFB_HANDSHAKE →
      parse_protocol_handshake packet =
        ⟨[.handshakeComplete], .securityHandshake, .ok 12⟩) := by
  constructor
  · intro h
    unfold parse_protocol_handshake
    rw [if_pos h]
  · intro h
    have hlen : 12 ≤ packet.length := by
      have h0 := congrArg List.length h
      simp only [List.length_take, RFB_HANDSHAKE, List.length_cons,
        List.length_nil] at h0
      omega
    have h4 : packet.take 4 = [82, 70, 66, 32] := by
      have h0 : packet.take 4 = (packet.take 12).take 4 := by
        rw [List.take_take]
        norm_num
      rw [h0, h]
      rfl
    have h7 : (packet.drop 4).take 7 = [48, 48, 51, 46, 48, 48, 56] := by
      rw [List.take_drop]
      norm_num
      have h11 : packet.take 11 = (packet.take 12).take 11 := by
        rw [List.take_take]
        norm_num
      rw [h11, h]
      rfl
    unfold parse_protocol_handshake
    rw [if_neg (by omega), if_neg (by simp [h4]), h7]
    rfl

/-- Witness for C1 at the shortest buffer and at the exact handshake bytes. -/
theorem C1_handshake_exact_witness :
    parse_protocol_handshake [82, 70] = ⟨[], .handshake, .ok 0⟩ ∧
    parse_protocol_handshake RFB_HANDSHAKE =
      ⟨[.handshakeComplete], .securityHandshake, .ok 12⟩ :=
  ⟨(C1_handshake_exact [82, 70]).1 (by decide),
    (C1_handshake_exact RFB_HANDSHAKE).2 (by decide)⟩

/-- C2 (code bug): on `b"RFB 003.003\n"` the version-mismatch branch raises
`TypeError` at `struct.pack(b"!BI", 0, len(msg)) + msg` (line 82), because
line 80 binds `msg` to a `str` while `struct.pack` returns `bytes`; no error
reply is sent, no INVALID notification is issued, no disconnect is scheduled
and the parser is left unchanged — contradicting the specified behaviour. -/
theorem C2_version_mismatch_raises :
    parse_protocol_handshake [82, 70, 66, 32, 48, 48, 51, 46, 48, 48, 51, 10] =
      ⟨[], .handshake, .raised .typeError⟩ := by decide

/-- C3: fragmentation invariance — feeding the bytes of a complete
well-formed message in arbitrary successive chunks produces exactly the same
single dispatched packet and the same final reader state as feeding them in
one chunk. -/
theorem C3_fragmentation_invariance (msg : List Nat) (cs : List (List Nat))
    (hc : CompleteMessage msg) (hj : cs.flatten = msg) :
    feedMany (.rfb, []) cs = feedMany (.rfb, []) [msg] ∧
    ∃ q, feedMany (.rfb, []) [msg] = ([Event.dispatch q], .ok .rfb []) := by
  obtain ⟨q, hp⟩ := complete_dispatch msg hc
  have hone : feedMany ((.rfb : ParserKind), ([] : List Nat)) [msg] =
      ([Event.dispatch q], .ok .rfb []) := by
    have hfeed : feed (.rfb, []) msg = ([.dispatch q], .ok .rfb []) := by
      show parseLoop .rfb ([] ++ msg) = _
      rw [List.nil_append]
      exact parseLoop_dispatch msg q hp hc.1
    simp [feedMany, hfeed]
  have hmany : feedMany (.rfb, []) cs = ([Event.dispatch q], .ok .rfb []) := by
    apply feedMany_rfb_frag msg q hp hc cs []
    · rw [List.nil_append]; exact hj
    · exact fun h => hc.1 h.symm
  exact ⟨by rw [hone, hmany], q, hone⟩

/-- Witness for C3: a PointerEvent message delivered one byte at a time. -/
theorem C3_fragmentation_invariance_witness :
    CompleteMessage [5, 1, 0, 10, 0, 20] ∧
    ([[5], [1], [0], [10], [0], [20]] : List (List Nat)).flatten =
      [5, 1, 0, 10, 0, 20] ∧
    (feedMany (.rfb, []) [[5], [1], [0], [10], [0], [20]] =
        feedMany (.rfb, []) [[5, 1, 0, 10, 0, 20]] ∧
      ∃ q, feedMany (.rfb, []) [[5, 1, 0, 10, 0, 20]] =
        ([Event.dispatch q], .ok .rfb [])) :=
  ⟨by decide, by decide,
    C3_fragmentation_invariance [5, 1, 0, 10, 0, 20]
      [[5], [1], [0], [10], [0], [20]] (by decide) (by decide)⟩

/-- C4: a buffer headed by a type code with no parser-table entry produces
exactly one INVALID notification (with its deferred disconnect) and switches
to the discard parser; afterwards no packet is ever dispatched from the
remaining buffered bytes, whatever further chunks arrive. -/
theorem C4_unknown_type_discard (t : Nat) (rest : List Nat) (cs : List (List Nat))
    (h : CLIENT_PACKET_TYPE_STR t = none) :
    (feedMany (.rfb, []) ((t :: rest) :: cs)).1 =
      [Event.invalidNotify (InvalidMsg.unknownPacketType t) (t :: rest),
        Event.scheduleDisconnect] ∧
    ∃ b', (feedMany (.rfb, []) ((t :: rest) :: cs)).2 = LoopOut.ok .invalid b' := by
  have hloop : parseLoop .rfb (t :: rest) =
      ([Event.invalidNotify (InvalidMsg.unknownPacketType t) (t :: rest),
        Event.scheduleDisconnect], .ok .invalid (t :: rest)) := by
    rw [parseLoop]
    simp only [List.cons_ne_nil, if_neg, reduceIte]
    rw [show runParser .rfb (t :: rest) =
        ⟨[Event.invalidNotify (InvalidMsg.unknownPacketType t) (t :: rest),
          Event.scheduleDisconnect], .invalid, .ok 0⟩ from parse_rfb_unknown_eq t rest h]
    rfl
  have hfeed : feed ((.rfb : ParserKind), ([] : List Nat)) (t :: rest) =
      ([Event.invalidNotify (InvalidMsg.unknownPacketType t) (t :: rest),
        Event.scheduleDisconnect], .ok .invalid (t :: rest)) := by
    show parseLoop .rfb ([] ++ (t :: rest)) = _
    rw [List.nil_append]
    exact hloop
  obtain ⟨h1, b', h2⟩ := feedMany_discard cs (t :: rest)
  refine ⟨?_, b', ?_⟩
  · simp [feedMany, hfeed, h1]
  · simp [feedMany, hfeed, h2]

/-- Witness for C4: unknown type code 9, followed by bytes that would form a
well-formed PointerEvent message. -/
theorem C4_unknown_type_discard_witness :
    CLIENT_PACKET_TYPE_STR 9 = none ∧
    ((feedMany (.rfb, []) ([9, 1, 2] :: [[5, 1, 0, 10, 0, 20]])).1 =
      [Event.invalidNotify (InvalidMsg.unknownPacketType 9) [9, 1, 2],
        Event.scheduleDisconnect] ∧
      ∃ b', (feedMany (.rfb, []) ([9, 1, 2] :: [[5, 1, 0, 10, 0, 20]])).2 =
        LoopOut.ok .invalid b') :=
  ⟨by decide, C4_unknown_type_discard 9 [1, 2] [[5, 1, 0, 10, 0, 20]] (by decide)⟩

/-- C5: whenever the buffered bytes are a proper front part of a well-formed
message (`msg.take k` with `k < msg.length`), `_parse_rfb` returns 0, emits
nothing, and leaves the active parser unchanged, so parsing is retried on
the next read. -/
theorem C5_truncated_never_error (msg : List Nat) (k : Nat)
    (hc : CompleteMessage msg) (hk : k < msg.length) :
    parse_rfb (msg.take k) = ⟨[], .rfb, .ok 0⟩ :=
  parse_rfb_take_noop msg k hc hk

/-- Witness for C5: the first 3 bytes of a 6-byte PointerEvent message. -/
theorem C5_truncated_never_error_witness :
    CompleteMessage [5, 1, 0, 10, 0, 20] ∧ 3 < ([5, 1, 0, 10, 0, 20] : List Nat).length ∧
    parse_rfb (([5, 1, 0, 10, 0, 20] : List Nat).take 3) = ⟨[], .rfb, .ok 0⟩ :=
  ⟨by decide, by decide,
    C5_truncated_never_error [5, 1, 0, 10, 0, 20] 3 (by decide) (by decide)⟩

/-- C6: a SetEncodings message (type code 2, layout `!BBH`, fixed size 4)
declaring count `N = hi*256 + lo` returns 0 until at least `4 + 4*N` bytes
are buffered (including while fewer than the 4 fixed bytes are available);
once fully buffered it consumes exactly `4 + 4*N` bytes and dispatches one
packet whose trailing field is the `N` big-endian signed 32-bit integers
decoded from the trailer. -/
theorem C6_set_encodings_parse (pad hi lo : Nat) (tail : List Nat) :
    (∀ k, k ≤ 3 →
      parse_rfb ((2 :: pad :: hi :: lo :: tail).take k) = ⟨[], .rfb, .ok 0⟩) ∧
    (tail.length < 4 * (hi * 256 + lo) →
      parse_rfb (2 :: pad :: hi :: lo :: tail) = ⟨[], .rfb, .ok 0⟩) ∧
    (4 * (hi * 256 + lo) ≤ tail.length →
      parse_rfb (2 :: pad :: hi :: lo :: tail) =
        ⟨[Event.dispatch ⟨"SetEncodings", [(pad : Int), ((hi * 256 + lo : Nat) : Int)],
            RFBExtra.encodings (decodeI32s (hi * 256 + lo) tail)⟩],
          .rfb, .ok (4 + 4 * (hi * 256 + lo))⟩) := by
  have hcast : ((hi : Int) * 256 + (lo : Int)).toNat = hi * 256 + lo := by omega
  have htot : totalSize 2 [.U8, .U8, .U16]
      (unpackFields [.U8, .U8, .U16] (2 :: pad :: hi :: lo :: tail)) =
      4 + 4 * (hi * 256 + lo) := by
    simp [totalSize, RFBClientMessage.SetEncodings, structSize, fieldSize,
      unpackFields, beVal, hcast]
  have hmk : mkPacket "SetEncodings" 2 [.U8, .U8, .U16] (2 :: pad :: hi :: lo :: tail) =
      ⟨"SetEncodings", [(pad : Int), ((hi * 256 + lo : Nat) : Int)],
        RFBExtra.encodings (decodeI32s (hi * 256 + lo) tail)⟩ := by
    simp [mkPacket, RFBClientMessage.SetEncodings, RFBClientMessage.ClientCutText,
      structSize, fieldSize, unpackFields, beVal, hcast]
  have hceq := parse_rfb_cons_eq 2 (pad :: hi :: lo :: tail) "SetEncodings"
    [.U8, .U8, .U16] rfl rfl
  refine ⟨?_, ?_, ?_⟩
  · intro k hk
    interval_cases k
    · rw [List.take_zero]; rfl
    · simp [parse_rfb, CLIENT_PACKET_TYPE_STR, PACKET_STRUCT, structSize, fieldSize]
    · simp [parse_rfb, CLIENT_PACKET_TYPE_STR, PACKET_STRUCT, structSize, fieldSize]
    · simp [parse_rfb, CLIENT_PACKET_TYPE_STR, PACKET_STRUCT, structSize, fieldSize]
  · intro h
    rw [hceq, htot]
    rw [if_neg (by simp [structSize, fieldSize]), if_pos (by simp; omega)]
  · intro h
    rw [hceq, htot, hmk]
    rw [if_neg (by simp [structSize, fieldSize]), if_neg (by simp; omega)]

/-- Witness for C6 at `N = 3` with 12 trailer bytes: the parser returns 0
one byte short of the total and dispatches the three decoded integers at the
exact total. -/
theorem C6_set_encodings_parse_witness :
    (([0, 0, 0, 1, 0, 0, 0, 2, 255, 255, 255] : List Nat).length < 4 * 3 ∧
      parse_rfb (2 :: 0 :: 0 :: 3 :: [0, 0, 0, 1, 0, 0, 0, 2, 255, 255, 255]) =
        ⟨[], .rfb, .ok 0⟩) ∧
    (4 * 3 ≤ ([0, 0, 0, 1, 0, 0, 0, 2, 255, 255, 255, 255] : List Nat).length ∧
      parse_rfb (2 :: 0 :: 0 :: 3 :: [0, 0, 0, 1, 0, 0, 0, 2, 255, 255, 255, 255]) =
        ⟨[Event.dispatch ⟨"SetEncodings", [(0 : Int), ((0 * 256 + 3 : Nat) : Int)],
            RFBExtra.encodings
              (decodeI32s (0 * 256 + 3) [0, 0, 0, 1, 0, 0, 0, 2, 255, 255, 255, 255])⟩],
          .rfb, .ok (4 + 4 * (0 * 256 + 3))⟩) :=
  ⟨⟨by decide, (C6_set_encodings_parse 0 0 3 [0, 0, 0, 1, 0, 0, 0, 2, 255, 255, 255]).2.1
      (by decide)⟩,
    ⟨by decide, (C6_set_encodings_parse 0 0 3
      [0, 0, 0, 1, 0, 0, 0, 2, 255, 255, 255, 255]).2.2 (by decide)⟩⟩

/-- C7 counterexample: on `b"RFB 003.007\n"` (12 bytes starting with
`RFB `), the handshake parser neither completes the handshake nor calls
`invalid()`/`invalid_header()`: it raises `TypeError` out of the parser
(caught only by the generic handler in `_io_thread_loop`, which closes the
connection without any INVALID notification). -/
theorem C7_counterexample :
    parse_protocol_handshake [82, 70, 66, 32, 48, 48, 51, 46, 48, 48, 55, 10] =
      ⟨[], .handshake, .raised .typeError⟩ := by decide

/-- C7 (amended): for every 12-or-more-byte input starting with `RFB `, the
handshake parser either completes the handshake (when the version field
parses and equals 003.008), or raises an exception out of the parser —
`ValueError` when a version piece is not an integer literal, `TypeError`
(from the unsupported-version reply construction) when the parsed version
differs — in which case it performs no observable effect and in particular
never calls `invalid()`. -/
theorem C7_handshake_trichotomy (packet : List Nat) (hlen : 12 ≤ packet.length)
    (hhdr : packet.take 4 = [82, 70, 66, 32]) :
    (parseVersion ((packet.drop 4).take 7) = some PROTOCOL_VERSION ∧
      parse_protocol_handshake packet =
        ⟨[.handshakeComplete], .securityHandshake, .ok 12⟩) ∨
    (parseVersion ((packet.drop 4).take 7) = none ∧
      parse_protocol_handshake packet = ⟨[], .handshake, .raised .valueError⟩) ∨
    (∃ v, parseVersion ((packet.drop 4).take 7) = some v ∧ v ≠ PROTOCOL_VERSION ∧
      parse_protocol_handshake packet = ⟨[], .handshake, .raised .typeError⟩) := by
  have hps : parse_protocol_handshake packet =
      match parseVersion ((packet.drop 4).take 7) with
      | none => ⟨[], .handshake, .raised .valueError⟩
      | some v =>
        if v ≠ PROTOCOL_VERSION then ⟨[], .handshake, .raised .typeError⟩
        else ⟨[.handshakeComplete], .securityHandshake, .ok 12⟩ := by
    unfold parse_protocol_handshake
    rw [if_neg (by omega), if_neg (by simp [hhdr])]
  cases hv : parseVersion ((packet.drop 4).take 7) with
  | none =>
    rw [hv] at hps
    exact Or.inr (Or.inl ⟨rfl, hps⟩)
  | some v =>
    rw [hv] at hps
    by_cases hpv : v = PROTOCOL_VERSION
    · subst hpv
      simp at hps
      exact Or.inl ⟨rfl, hps⟩
    · exact Or.inr (Or.inr ⟨v, rfl, hpv, by simpa [hpv] using hps⟩)

/-- Witness for C7 (amended) at the exact handshake bytes. -/
theorem C7_handshake_trichotomy_witness :
    12 ≤ RFB_HANDSHAKE.length ∧ RFB_HANDSHAKE.take 4 = [82, 70, 66, 32] ∧
    ((parseVersion ((RFB_HANDSHAKE.drop 4).take 7) = some PROTOCOL_VERSION ∧
      parse_protocol_handshake RFB_HANDSHAKE =
        ⟨[.handshakeComplete], .securityHandshake, .ok 12⟩) ∨
    (parseVersion ((RFB_HANDSHAKE.drop 4).take 7) = none ∧
      parse_protocol_handshake RFB_HANDSHAKE = ⟨[], .handshake, .raised .valueError⟩) ∨
    (∃ v, parseVersion ((RFB_HANDSHAKE.drop 4).take 7) = some v ∧ v ≠ PROTOCOL_VERSION ∧
      parse_protocol_handshake RFB_HANDSHAKE = ⟨[], .handshake, .raised .typeError⟩)) :=
  ⟨by decide, by decide, C7_handshake_trichotomy RFB_HANDSHAKE (by decide) (by decide)⟩

/-- C8: once the closed flag is set, `send(packet)` is a silent no-op: it
enqueues nothing, does not start the write thread, and leaves the state
unchanged. -/
theorem C8_send_after_close_noop (st : WriteState) (packet : List Nat)
    (h : st.closed = true) :
    send st packet = st := by
  unfold send
  rw [if_pos h]

/-- Witness for C8 on a closed instance with an idle write thread and empty
queue. -/
theorem C8_send_after_close_noop_witness :
    (⟨true, false, []⟩ : WriteState).closed = true ∧
    send ⟨true, false, []⟩ [1, 2, 3] = ⟨true, false, []⟩ :=
  ⟨by decide, C8_send_after_close_noop ⟨true, false, []⟩ [1, 2, 3] (by decide)⟩

/-- C9 counterexample: two threads running `close()` under the alternating
schedule both pass the `if self._closed: return` check before either sets
the flag, so the Connection is closed twice, the shutdown sentinel is
enqueued twice and CONNECTION_LOST is delivered twice — the exactly-once
guarantee fails for concurrent calls. -/
theorem C9_counterexample :
    runSched initCloseState ⟨closeProg, false⟩ ⟨closeProg, false⟩
      [true, false, true, false, true, false, true, false, true, false, true, false] =
    { closed := true, connOpen := false, connCloseCount := 2,
      sentinelCount := 2, connectionLostCount := 2 } := by decide

/-- C9 (amended): for sequential (non-overlapping) `close()` calls — the
first caller running all its statements before the second starts — the
Connection close, the sentinel enqueue and the CONNECTION_LOST notification
each happen exactly once: the second call returns at the closed-flag
check. -/
theorem C9_sequential_close_exactly_once :
    runSched initCloseState ⟨closeProg, false⟩ ⟨closeProg, false⟩
      (List.replicate 6 true ++ List.replicate 6 false) =
    { closed := true, connOpen := false, connCloseCount := 1,
      sentinelCount := 1, connectionLostCount := 1 } := by decide

/-- C10: the reader's inner parse loop terminates on every finite buffer:
every parser reports a consumed count of at most the buffered length (0
exits the loop, any positive count strictly shrinks the buffer), so
`buf.length + 1` iterations always reach the loop's result. -/
theorem C10_parse_loop_terminates (p : ParserKind) (buf : List Nat) :
    consumedOf (runParser p buf) ≤ buf.length ∧
    parseLoopF (buf.length + 1) p buf = some (parseLoop p buf) :=
  ⟨consumedOf_le p buf, parseLoopF_adequate (buf.length + 1) p buf (Nat.lt_succ_self _)⟩
